import Mathlib

/-!
Verification development for the Patterns repository, covering the two
components with genuine evaluation/transition logic:

* the Interpreter-pattern arithmetic expression evaluator
  (`src/BehavioralPattern/Interpreter.ts`), embedded as a recursive
  evaluator over rational numbers with the single `DivisionByZero`
  error kind;
* the State-pattern order lifecycle machine
  (`src/BehavioralPattern/State.ts`), embedded as a pure transition
  function `(state, operation) -> (newState, console output)`.
-/

namespace Interp

/-- Expression trees, one constructor per concrete `Expression` subclass of
`Interpreter.ts`: `NumberExpression`, `AddExpression`, `SubtractExpression`,
`MultiplyExpression`, `DivideExpression`.  Numeric leaves are modelled as
rationals (the script only ever uses exact arithmetic). -/
inductive Expr where
  | num (v : ℚ)
  | add (l r : Expr)
  | sub (l r : Expr)
  | mul (l r : Expr)
  | divide (l r : Expr)
deriving DecidableEq, Repr

/-- Result of evaluating an expression: either a number, or the single error
kind raised by `DivideExpression.interpret` via
`throw new Error("Division by zero is not allowed.")`. -/
inductive EvalResult where
  | ok (v : ℚ)
  | divisionByZero
deriving DecidableEq, Repr

/-- Embedding of `interpret()` from `Interpreter.ts`.  Each arm mirrors the
corresponding `interpret` method body; a thrown error propagates out of every
enclosing call, which the embedding renders by short-circuit matching.  Note
the source of `DivideExpression.interpret` evaluates the RIGHT subtree first
(`const denominator = this.right.interpret();`), checks it against zero, and
only then evaluates the left subtree. -/
def interpret : Expr → EvalResult
  | .num v => .ok v
  | .add l r =>
      match interpret l with
      | .divisionByZero => .divisionByZero
      | .ok a =>
          match interpret r with
          | .divisionByZero => .divisionByZero
          | .ok b => .ok (a + b)
  | .sub l r =>
      match interpret l with
      | .divisionByZero => .divisionByZero
      | .ok a =>
          match interpret r with
          | .divisionByZero => .divisionByZero
          | .ok b => .ok (a - b)
  | .mul l r =>
      match interpret l with
      | .divisionByZero => .divisionByZero
      | .ok a =>
          match interpret r with
          | .divisionByZero => .divisionByZero
          | .ok b => .ok (a * b)
  | .divide l r =>
      match interpret r with
      | .divisionByZero => .divisionByZero
      | .ok d =>
          if d = 0 then .divisionByZero
          else
            match interpret l with
            | .divisionByZero => .divisionByZero
            | .ok a => .ok (a / d)

/-- Standard arithmetic denotation of a tree, used to state that `interpret`
matches ordinary arithmetic away from zero divisors. -/
def denote : Expr → ℚ
  | .num v => v
  | .add l r => denote l + denote r
  | .sub l r => denote l - denote r
  | .mul l r => denote l * denote r
  | .divide l r => denote l / denote r

/-- Every `divide` node in the tree has a right subtree whose standard value
is non-zero (the precondition of the spec's arithmetic-correctness claim). -/
def divisorsNonzero : Expr → Bool
  | .num _ => true
  | .add l r => divisorsNonzero l && divisorsNonzero r
  | .sub l r => divisorsNonzero l && divisorsNonzero r
  | .mul l r => divisorsNonzero l && divisorsNonzero r
  | .divide l r => divisorsNonzero l && divisorsNonzero r && decide (denote r ≠ 0)

/-- Modelled from the spec: the reference evaluator that "always evaluates
the left child first", at every binary node including `Divide`.  It is the
comparison point for the evaluation-order refinement claim; everything else
follows `interpret`. -/
def interpretLeftFirst : Expr → EvalResult
  | .num v => .ok v
  | .add l r =>
      match interpretLeftFirst l with
      | .divisionByZero => .divisionByZero
      | .ok a =>
          match interpretLeftFirst r with
          | .divisionByZero => .divisionByZero
          | .ok b => .ok (a + b)
  | .sub l r =>
      match interpretLeftFirst l with
      | .divisionByZero => .divisionByZero
      | .ok a =>
          match interpretLeftFirst r with
          | .divisionByZero => .divisionByZero
          | .ok b => .ok (a - b)
  | .mul l r =>
      match interpretLeftFirst l with
      | .divisionByZero => .divisionByZero
      | .ok a =>
          match interpretLeftFirst r with
          | .divisionByZero => .divisionByZero
          | .ok b => .ok (a * b)
  | .divide l r =>
      match interpretLeftFirst l with
      | .divisionByZero => .divisionByZero
      | .ok a =>
          match interpretLeftFirst r with
          | .divisionByZero => .divisionByZero
          | .ok d => if d = 0 then .divisionByZero else .ok (a / d)

/-- Instrumented version of `interpret` that also records, in evaluation
order, the value of every `NumberExpression` leaf actually read.  The order
of the recorded reads follows the source statement order exactly: left
operand first for `add`, `sub`, `mul`; denominator (right) first for
`divide`. -/
def interpretTrace : Expr → EvalResult × List ℚ
  | .num v => (.ok v, [v])
  | .add l r =>
      match interpretTrace l with
      | (.divisionByZero, tl) => (.divisionByZero, tl)
      | (.ok a, tl) =>
          match interpretTrace r with
          | (.divisionByZero, tr) => (.divisionByZero, tl ++ tr)
          | (.ok b, tr) => (.ok (a + b), tl ++ tr)
  | .sub l r =>
      match interpretTrace l with
      | (.divisionByZero, tl) => (.divisionByZero, tl)
      | (.ok a, tl) =>
          match interpretTrace r with
          | (.divisionByZero, tr) => (.divisionByZero, tl ++ tr)
          | (.ok b, tr) => (.ok (a - b), tl ++ tr)
  | .mul l r =>
      match interpretTrace l with
      | (.divisionByZero, tl) => (.divisionByZero, tl)
      | (.ok a, tl) =>
          match interpretTrace r with
          | (.divisionByZero, tr) => (.divisionByZero, tl ++ tr)
          | (.ok b, tr) => (.ok (a * b), tl ++ tr)
  | .divide l r =>
      match interpretTrace r with
      | (.divisionByZero, tr) => (.divisionByZero, tr)
      | (.ok d, tr) =>
          if d = 0 then (.divisionByZero, tr)
          else
            match interpretTrace l with
            | (.divisionByZero, tl) => (.divisionByZero, tr ++ tl)
            | (.ok a, tl) => (.ok (a / d), tr ++ tl)

/-- Modelled from the spec: the leaf-read trace of the reference left-first
evaluator, for comparison with `interpretTrace`. -/
def leftFirstTrace : Expr → EvalResult × List ℚ
  | .num v => (.ok v, [v])
  | .add l r =>
      match leftFirstTrace l with
      | (.divisionByZero, tl) => (.divisionByZero, tl)
      | (.ok a, tl) =>
          match leftFirstTrace r with
          | (.divisionByZero, tr) => (.divisionByZero, tl ++ tr)
          | (.ok b, tr) => (.ok (a + b), tl ++ tr)
  | .sub l r =>
      match leftFirstTrace l with
      | (.divisionByZero, tl) => (.divisionByZero, tl)
      | (.ok a, tl) =>
          match leftFirstTrace r with
          | (.divisionByZero, tr) => (.divisionByZero, tl ++ tr)
          | (.ok b, tr) => (.ok (a - b), tl ++ tr)
  | .mul l r =>
      match leftFirstTrace l with
      | (.divisionByZero, tl) => (.divisionByZero, tl)
      | (.ok a, tl) =>
          match leftFirstTrace r with
          | (.divisionByZero, tr) => (.divisionByZero, tl ++ tr)
          | (.ok b, tr) => (.ok (a * b), tl ++ tr)
  | .divide l r =>
      match leftFirstTrace l with
      | (.divisionByZero, tl) => (.divisionByZero, tl)
      | (.ok a, tl) =>
          match leftFirstTrace r with
          | (.divisionByZero, tr) => (.divisionByZero, tl ++ tr)
          | (.ok d, tr) =>
              if d = 0 then (.divisionByZero, tl ++ tr) else (.ok (a / d), tl ++ tr)

/-- Big-step evaluation relation for the interpreter: `Evals e r` holds when
one run of `interpret` on `e` can produce `r`.  Constructors mirror the
control flow of the `interpret` methods, including the right-first
evaluation and zero check of `DivideExpression.interpret`. -/
inductive Evals : Expr → EvalResult → Prop where
  | num (v : ℚ) : Evals (.num v) (.ok v)
  | addOk : Evals l (.ok a) → Evals r (.ok b) → Evals (.add l r) (.ok (a + b))
  | addErrL : Evals l .divisionByZero → Evals (.add l r) .divisionByZero
  | addErrR : Evals l (.ok a) → Evals r .divisionByZero → Evals (.add l r) .divisionByZero
  | subOk : Evals l (.ok a) → Evals r (.ok b) → Evals (.sub l r) (.ok (a - b))
  | subErrL : Evals l .divisionByZero → Evals (.sub l r) .divisionByZero
  | subErrR : Evals l (.ok a) → Evals r .divisionByZero → Evals (.sub l r) .divisionByZero
  | mulOk : Evals l (.ok a) → Evals r (.ok b) → Evals (.mul l r) (.ok (a * b))
  | mulErrL : Evals l .divisionByZero → Evals (.mul l r) .divisionByZero
  | mulErrR : Evals l (.ok a) → Evals r .divisionByZero → Evals (.mul l r) .divisionByZero
  | divErrR : Evals r .divisionByZero → Evals (.divide l r) .divisionByZero
  | divZero : Evals r (.ok 0) → Evals (.divide l r) .divisionByZero
  | divErrL : Evals r (.ok d) → d ≠ 0 → Evals l .divisionByZero →
      Evals (.divide l r) .divisionByZero
  | divOk : Evals r (.ok d) → d ≠ 0 → Evals l (.ok a) →
      Evals (.divide l r) (.ok (a / d))

/-- The first example tree built by `main()`: `(5 + 3) * (10 - 2)`. -/
def exprOne : Expr :=
  .mul (.add (.num 5) (.num 3)) (.sub (.num 10) (.num 2))

/-- The second example tree built by `main()`: `(20 / 5) + (4 * 3)`. -/
def exprTwo : Expr :=
  .add (.divide (.num 20) (.num 5)) (.mul (.num 4) (.num 3))

end Interp

namespace OrderSM

/-- The three state tags of the order lifecycle machine, one per concrete
state class of `State.ts`: `OrderPlacedState`, `OrderShippedState`,
`OrderDeliveredState`. -/
inductive OrderStateK where
  | placed
  | shipped
  | delivered
deriving DecidableEq, Repr

/-- The three operations of the `OrderState` interface. -/
inductive Op where
  | processOrder
  | shipOrder
  | deliverOrder
deriving DecidableEq, Repr

/-- Pure transition function of the state machine: dispatching an operation
on an `OrderContext` in a given state yields the next state together with
the console lines printed, transcribed arm by arm from the nine method
bodies of the three state classes in `State.ts`. -/
def step : OrderStateK → Op → OrderStateK × List String
  | .placed, .processOrder =>
      (.shipped, ["[OrderPlaced] Processing order..."])
  | .placed, .shipOrder =>
      (.placed, ["[OrderPlaced] Order cannot be shipped before processing."])
  | .placed, .deliverOrder =>
      (.placed, ["[OrderPlaced] Order cannot be delivered before shipping."])
  | .shipped, .processOrder =>
      (.shipped, ["[OrderShipped] Order has already been processed."])
  | .shipped, .shipOrder =>
      (.delivered, ["[OrderShipped] Shipping order..."])
  | .shipped, .deliverOrder =>
      (.shipped, ["[OrderShipped] Order cannot be delivered before shipping."])
  | .delivered, .processOrder =>
      (.delivered, ["[OrderDelivered] Order has already been delivered."])
  | .delivered, .shipOrder =>
      (.delivered, ["[OrderDelivered] Order has already been shipped."])
  | .delivered, .deliverOrder =>
      (.delivered, ["[OrderDelivered] Delivering order...",
                    "[OrderDelivered] Order is now complete."])

/-- The state a fresh `OrderContext` is constructed in
(`this.state = new OrderPlacedState(this)`). -/
def initialState : OrderStateK := .placed

/-- Position of a state along the lifecycle `Placed → Shipped → Delivered`,
used to express that transitions never move backward or skip a stage. -/
def rank : OrderStateK → Nat
  | .placed => 0
  | .shipped => 1
  | .delivered => 2

/-- The console lines of `State.ts` that announce a successful transition or
completion (as opposed to the informational rejection lines, which all say
the operation cannot happen or has already happened). -/
def successMessages : List String :=
  ["[OrderPlaced] Processing order...",
   "[OrderShipped] Shipping order...",
   "[OrderDelivered] Delivering order..."]

/-- An operation call reports success when its console output contains one
of the transition/completion announcements; otherwise it only reports an
informational rejection. -/
def reportsSuccess (s : OrderStateK) (op : Op) : Bool :=
  ((step s op).snd).any (fun m => successMessages.contains m)

/-- Run a sequence of operation calls from a starting state, keeping only
the resulting state (`main()` in `State.ts` performs such a sequence). -/
def run (s : OrderStateK) (ops : List Op) : OrderStateK :=
  ops.foldl (fun t op => (step t op).fst) s

end OrderSM

namespace Interp

/-- One run of `interpret` realises the big-step relation: evaluation of any
tree can produce the result `interpret` computes. -/
theorem interpret_evals : ∀ e, Evals e (interpret e) := by
  intro e
  induction e with
  | num v => exact Evals.num v
  | add l r ihl ihr =>
      cases hl : interpret l with
      | divisionByZero =>
          simp only [interpret, hl]
          exact Evals.addErrL (hl ▸ ihl)
      | ok a =>
          cases hr : interpret r with
          | divisionByZero =>
              simp only [interpret, hl, hr]
              exact Evals.addErrR (hl ▸ ihl) (hr ▸ ihr)
          | ok b =>
              simp only [interpret, hl, hr]
              exact Evals.addOk (hl ▸ ihl) (hr ▸ ihr)
  | sub l r ihl ihr =>
      cases hl : interpret l with
      | divisionByZero =>
          simp only [interpret, hl]
          exact Evals.subErrL (hl ▸ ihl)
      | ok a =>
          cases hr : interpret r with
          | divisionByZero =>
              simp only [interpret, hl, hr]
              exact Evals.subErrR (hl ▸ ihl) (hr ▸ ihr)
          | ok b =>
              simp only [interpret, hl, hr]
              exact Evals.subOk (hl ▸ ihl) (hr ▸ ihr)
  | mul l r ihl ihr =>
      cases hl : interpret l with
      | divisionByZero =>
          simp only [interpret, hl]
          exact Evals.mulErrL (hl ▸ ihl)
      | ok a =>
          cases hr : interpret r with
          | divisionByZero =>
              simp only [interpret, hl, hr]
              exact Evals.mulErrR (hl ▸ ihl) (hr ▸ ihr)
          | ok b =>
              simp only [interpret, hl, hr]
              exact Evals.mulOk (hl ▸ ihl) (hr ▸ ihr)
  | divide l r ihl ihr =>
      cases hr : interpret r with
      | divisionByZero =>
          simp only [interpret, hr]
          exact Evals.divErrR (hr ▸ ihr)
      | ok d =>
          by_cases hd : d = 0
          · subst hd
            simp only [interpret, hr, if_pos rfl]
            exact Evals.divZero (hr ▸ ihr)
          · cases hl : interpret l with
            | divisionByZero =>
                simp only [interpret, hr, if_neg hd, hl]
                exact Evals.divErrL (hr ▸ ihr) hd (hl ▸ ihl)
            | ok a =>
                simp only [interpret, hr, if_neg hd, hl]
                exact Evals.divOk (hr ▸ ihr) hd (hl ▸ ihl)

/-- The big-step relation is realised only by the value `interpret`
computes. -/
theorem evals_interpret {e : Expr} {r : EvalResult} (h : Evals e r) :
    interpret e = r := by
  induction h with
  | num v => rfl
  | addOk hl hr ihl ihr => simp [interpret, ihl, ihr]
  | addErrL hl ihl => simp [interpret, ihl]
  | addErrR hl hr ihl ihr => simp [interpret, ihl, ihr]
  | subOk hl hr ihl ihr => simp [interpret, ihl, ihr]
  | subErrL hl ihl => simp [interpret, ihl]
  | subErrR hl hr ihl ihr => simp [interpret, ihl, ihr]
  | mulOk hl hr ihl ihr => simp [interpret, ihl, ihr]
  | mulErrL hl ihl => simp [interpret, ihl]
  | mulErrR hl hr ihl ihr => simp [interpret, ihl, ihr]
  | divErrR hr ihr => simp [interpret, ihr]
  | divZero hr ihr => simp [interpret, ihr]
  | divErrL hr hd hl ihr ihl => simp [interpret, ihr, ihl, hd]
  | divOk hr hd hl ihr ihl => simp [interpret, ihr, ihl, hd]

end Interp

namespace Interp

/-- C1 counterexample: the claimed equivalence "Divide(l, r) fails iff r
evaluates to zero" is false: for l = Divide(1, 0) and r = Number(2), the
whole division fails (the error from the left subtree propagates) although
the right subtree evaluates to 2, which is non-zero. -/
theorem divide_fails_with_nonzero_divisor :
    interpret (Expr.divide (Expr.divide (Expr.num 1) (Expr.num 0)) (Expr.num 2)) =
      EvalResult.divisionByZero ∧
    interpret (Expr.num 2) = EvalResult.ok 2 ∧ (2 : ℚ) ≠ 0 := by
  refine ⟨by norm_num [interpret], rfl, by norm_num⟩

/-- C1 (amended): evaluating Divide(l, r) fails with DivisionByZero iff the
right subtree evaluates to zero, or the left or right subtree itself fails;
the error is raised afresh at a Divide node only by a zero denominator, it
propagates immediately, and no partial or default value is returned.  In
particular Divide(x, Number(0)) fails for every subtree x. -/
theorem divide_error_characterization :
    (∀ l r, interpret (Expr.divide l r) = EvalResult.divisionByZero ↔
      (interpret r = EvalResult.ok 0 ∨ interpret l = EvalResult.divisionByZero ∨
        interpret r = EvalResult.divisionByZero)) ∧
    (∀ x, interpret (Expr.divide x (Expr.num 0)) = EvalResult.divisionByZero) := by
  constructor
  · intro l r
    cases hr : interpret r with
    | divisionByZero => simp [interpret, hr]
    | ok d =>
        by_cases hd : d = 0
        · subst hd
          simp [interpret, hr]
        · cases hl : interpret l with
          | divisionByZero => simp [interpret, hr, hl, hd]
          | ok a => simp [interpret, hr, hl, hd]
  · intro x
    simp [interpret]

/-- Witness for C1 at a concrete input: Divide(Number(1), Number(0)) fails. -/
theorem divide_error_characterization_witness :
    interpret (Expr.divide (Expr.num 1) (Expr.num 0)) = EvalResult.divisionByZero :=
  divide_error_characterization.2 (Expr.num 1)

/-- Helper for C2: on trees all of whose divisors are non-zero, `interpret`
computes the standard arithmetic denotation. -/
theorem interpret_matches_denote :
    ∀ e, divisorsNonzero e = true → interpret e = EvalResult.ok (denote e) := by
  intro e
  induction e with
  | num v => intro h; rfl
  | add l r ihl ihr =>
      intro h
      simp only [divisorsNonzero, Bool.and_eq_true] at h
      simp [interpret, denote, ihl h.1, ihr h.2]
  | sub l r ihl ihr =>
      intro h
      simp only [divisorsNonzero, Bool.and_eq_true] at h
      simp [interpret, denote, ihl h.1, ihr h.2]
  | mul l r ihl ihr =>
      intro h
      simp only [divisorsNonzero, Bool.and_eq_true] at h
      simp [interpret, denote, ihl h.1, ihr h.2]
  | divide l r ihl ihr =>
      intro h
      simp only [divisorsNonzero, Bool.and_eq_true, decide_eq_true_eq] at h
      obtain ⟨⟨h1, h2⟩, h3⟩ := h
      simp [interpret, denote, ihl h1, ihr h2, h3]

/-- C2 counterexample: the claimed value of Add(Divide(20,5), Multiply(4,3))
is 14, but the evaluator (and standard arithmetic: 20/5 + 4*3 = 4 + 12)
yields 16. -/
theorem expression_two_evaluates_to_sixteen :
    interpret exprTwo = EvalResult.ok 16 ∧
    EvalResult.ok (16 : ℚ) ≠ EvalResult.ok (14 : ℚ) := by
  constructor
  · norm_num [interpret, exprTwo]
  · intro h
    cases h

/-- C2 (amended): on every tree whose Divide nodes all have right subtrees
with non-zero standard value, `interpret` returns the standard arithmetic
result per variant; in particular Multiply(Add(5,3), Subtract(10,2))
evaluates to 64 and Add(Divide(20,5), Multiply(4,3)) evaluates to 16. -/
theorem evaluate_matches_standard_arithmetic :
    (∀ e, divisorsNonzero e = true → interpret e = EvalResult.ok (denote e)) ∧
    interpret exprOne = EvalResult.ok 64 ∧ interpret exprTwo = EvalResult.ok 16 := by
  refine ⟨interpret_matches_denote, by norm_num [interpret, exprOne],
    by norm_num [interpret, exprTwo]⟩

/-- Witness for C2: the first example tree of `main()` has all divisors
non-zero, and the theorem applied to it computes its value. -/
theorem evaluate_matches_standard_arithmetic_witness :
    divisorsNonzero exprOne = true ∧
    interpret exprOne = EvalResult.ok (denote exprOne) :=
  ⟨by decide, evaluate_matches_standard_arithmetic.1 exprOne (by decide)⟩

/-- C5 counterexample: at a Divide node the source evaluates the RIGHT
subtree (the denominator) first: on Divide(Number(1), Number(2)) the leaf
reads happen in the order [2, 1], not in the left-first order [1, 2]. -/
theorem divide_evaluates_denominator_first :
    (interpretTrace (Expr.divide (Expr.num 1) (Expr.num 2))).snd = [2, 1] ∧
    (leftFirstTrace (Expr.divide (Expr.num 1) (Expr.num 2))).snd = [1, 2] ∧
    ([(2 : ℚ), 1] : List ℚ) ≠ [1, 2] := by
  refine ⟨by decide, by decide, by decide⟩

/-- C5 (amended): evaluation is left-before-right at Add, Subtract and
Multiply nodes, but at Divide nodes the denominator (right subtree) is
evaluated first; nevertheless `interpret` is equal, as a function into
number-or-DivisionByZero, to the reference evaluator that always evaluates
the left child first. -/
theorem evaluate_eq_left_first_reference :
    ∀ e, interpret e = interpretLeftFirst e := by
  intro e
  induction e with
  | num v => rfl
  | add l r ihl ihr => simp only [interpret, interpretLeftFirst, ihl, ihr]
  | sub l r ihl ihr => simp only [interpret, interpretLeftFirst, ihl, ihr]
  | mul l r ihl ihr => simp only [interpret, interpretLeftFirst, ihl, ihr]
  | divide l r ihl ihr =>
      simp only [interpret, interpretLeftFirst, ihl, ihr]
      cases interpretLeftFirst l with
      | divisionByZero =>
          cases interpretLeftFirst r with
          | divisionByZero => rfl
          | ok d => by_cases hd : d = 0 <;> simp [hd]
      | ok a =>
          cases interpretLeftFirst r with
          | divisionByZero => rfl
          | ok d => rfl

/-- C9: evaluation is deterministic (hence idempotent): any two runs of the
interpreter on the same tree produce the same result, the same number or
the same DivisionByZero failure. -/
theorem evaluation_deterministic :
    ∀ e r₁ r₂, Evals e r₁ → Evals e r₂ → r₁ = r₂ := by
  intro e r₁ r₂ h₁ h₂
  rw [← evals_interpret h₁, ← evals_interpret h₂]

/-- Witness for C9: two runs on Number(5), one by the realisability lemma
and one by the base constructor, agree. -/
theorem evaluation_deterministic_witness :
    interpret (Expr.num 5) = EvalResult.ok 5 :=
  evaluation_deterministic (Expr.num 5) _ _ (interpret_evals (Expr.num 5)) (Evals.num 5)

/-- C10: evaluation terminates on every finite expression tree: each tree
evaluates to some result (a value or the DivisionByZero failure) under the
big-step relation, realised by the structurally recursive `interpret`. -/
theorem evaluation_terminates : ∀ e, ∃ r, Evals e r :=
  fun e => ⟨interpret e, interpret_evals e⟩

end Interp

namespace OrderSM

/-- C3: every single operation call, in every state, either leaves the state
unchanged or advances it exactly one step along
Placed → Shipped → Delivered; no call moves backward or skips a stage, and
from Delivered no call changes the state. -/
theorem transitions_strictly_forward :
    (∀ s op, (step s op).fst = s ∨ rank (step s op).fst = rank s + 1) ∧
    (∀ op, (step OrderStateK.delivered op).fst = OrderStateK.delivered) := by
  constructor
  · intro s op
    cases s <;> cases op <;> decide
  · intro op
    cases op <;> decide

/-- C4: every (state, operation) pair has a defined outcome: it always
reports at least one message (never throws), and a call that does not
report a success outcome leaves the state unchanged. -/
theorem every_pair_has_defined_outcome :
    ∀ s op, (step s op).snd ≠ [] ∧
      (reportsSuccess s op = false → (step s op).fst = s) := by
  intro s op
  cases s <;> cases op <;> decide

/-- Witness for C4: shipping a freshly placed order is rejected and leaves
the state at Placed. -/
theorem every_pair_has_defined_outcome_witness :
    (step OrderStateK.placed Op.shipOrder).fst = OrderStateK.placed :=
  (every_pair_has_defined_outcome OrderStateK.placed Op.shipOrder).2 (by decide)

/-- C6: processOrder transitions Placed to Shipped, shipOrder transitions
Shipped to Delivered, and deliverOrder never changes the state in any of
the three states: in Placed and Shipped it reports a rejection, in
Delivered it reports completion (an idempotent terminal action). -/
theorem deliver_order_frame :
    (step OrderStateK.placed Op.processOrder).fst = OrderStateK.shipped ∧
    (step OrderStateK.shipped Op.shipOrder).fst = OrderStateK.delivered ∧
    (∀ s, (step s Op.deliverOrder).fst = s) ∧
    reportsSuccess OrderStateK.placed Op.deliverOrder = false ∧
    reportsSuccess OrderStateK.shipped Op.deliverOrder = false ∧
    reportsSuccess OrderStateK.delivered Op.deliverOrder = true := by
  refine ⟨by decide, by decide, ?_, by decide, by decide, by decide⟩
  intro s
  cases s <;> decide

/-- C7: from a fresh OrderContext (state Placed), the call sequence
processOrder(); shipOrder(); deliverOrder() ends in Delivered and each of
the three calls reports success (a transition or completion outcome, not a
rejection). -/
theorem happy_path_reaches_delivered :
    run initialState [Op.processOrder, Op.shipOrder, Op.deliverOrder] =
      OrderStateK.delivered ∧
    reportsSuccess initialState Op.processOrder = true ∧
    reportsSuccess (step initialState Op.processOrder).fst Op.shipOrder = true ∧
    reportsSuccess
      (step (step initialState Op.processOrder).fst Op.shipOrder).fst
      Op.deliverOrder = true := by
  decide

/-- C8: shipOrder on a fresh OrderContext leaves the state at Placed with a
rejection message, and processOrder in Delivered reports "already
delivered" and leaves the state at Delivered. -/
theorem invalid_calls_leave_state_unchanged :
    step initialState Op.shipOrder =
      (OrderStateK.placed,
        ["[OrderPlaced] Order cannot be shipped before processing."]) ∧
    reportsSuccess initialState Op.shipOrder = false ∧
    step OrderStateK.delivered Op.processOrder =
      (OrderStateK.delivered,
        ["[OrderDelivered] Order has already been delivered."]) ∧
    reportsSuccess OrderStateK.delivered Op.processOrder = false := by
  decide

end OrderSM
